import Mathlib

/-!
Shallow embedding of the `rnacanvas/draw.svg.interact` repository:
three independent UI features for an SVG editing canvas.

* `PinchToScaleFeature` (src/PinchToScaleFeature.ts): control-wheel zoom
  with delta clamping, scale clamping and scrollbar-thumb compensation.
* `ClickSelectTool` (src/ClickSelectTool.ts): mouse-down selection of
  graphical elements with shift-click multi-select.
* `SelectingRect` (src/SelectingRect.ts): rubber-band drag selection over
  the direct graphical children of the target SVG document.

JavaScript numbers are modelled by `JsNum`: a rational, NaN, or a signed
infinity (negative zero is identified with zero).  Elements of the SVG
document are identified by natural numbers; the externally owned live
selection set is a `Finset ℕ`.
-/

/-- A JavaScript number: a finite value (idealized as a rational),
NaN, or an infinity (`inf true` is +Infinity, `inf false` is -Infinity). -/
inductive JsNum where
  | fin (q : ℚ)
  | nan
  | inf (pos : Bool)
deriving DecidableEq

namespace JsNum

/-- The check `Number.isFinite`. -/
def jsIsFinite : JsNum → Bool
  | fin _ => true
  | nan => false
  | inf _ => false

/-- The JavaScript `<` comparison: false whenever either side is NaN. -/
def jsLt : JsNum → JsNum → Bool
  | fin a, fin b => a < b
  | nan, _ => false
  | _, nan => false
  | inf true, _ => false
  | inf false, inf false => false
  | inf false, _ => true
  | fin _, inf pos => pos

/-- JavaScript multiplication on the `JsNum` model
(IEEE rules for NaN and infinities; signed zero collapsed to zero). -/
def jsMul : JsNum → JsNum → JsNum
  | fin a, fin b => fin (a * b)
  | nan, _ => nan
  | _, nan => nan
  | inf p, inf q => inf (p == q)
  | inf p, fin b => if b = 0 then nan else inf (p == decide (0 < b))
  | fin a, inf q => if a = 0 then nan else inf (q == decide (0 < a))

/-- JavaScript subtraction on the `JsNum` model. -/
def jsSub : JsNum → JsNum → JsNum
  | fin a, fin b => fin (a - b)
  | nan, _ => nan
  | _, nan => nan
  | inf p, inf q => if p = q then nan else inf p
  | inf p, fin _ => inf p
  | fin _, inf q => inf (!q)

/-- JavaScript division on the `JsNum` model
(division of a nonzero finite value by zero gives a signed infinity;
`0 / 0` gives NaN; a finite value over an infinity gives zero). -/
def jsDiv : JsNum → JsNum → JsNum
  | fin a, fin b =>
      if b = 0 then
        if a = 0 then nan else inf (decide (0 < a))
      else fin (a / b)
  | nan, _ => nan
  | _, nan => nan
  | inf _, inf _ => nan
  | inf p, fin b => if b < 0 then inf (!p) else inf p
  | fin _, inf _ => fin 0

/-- The `clamp` helper of the external `@rnacanvas/math` package:
`clamp(v, lo, hi)` moves `v` into `[lo, hi]`, with NaN passed through
(JavaScript comparisons against NaN are false). -/
def clamp (v lo hi : JsNum) : JsNum :=
  if jsLt v lo then lo else if jsLt hi v then hi else v

end JsNum

namespace PinchToScaleFeature

open JsNum

/-- A wheel event as seen by `PinchToScaleFeature.handleWheel`:
the control-modifier flag, whether `event.target` is a DOM node,
whether the interaction scope contains the target, and the raw
vertical wheel delta. -/
structure WheelInput where
  ctrlKey : Bool
  targetIsNode : Bool
  targetInScope : Bool
  deltaY : JsNum
deriving DecidableEq

/-- The mutable state touched by `handleWheel`: the document coordinate
system uniform scaling factor and, when attached, the thumb-center
coordinates of the optional horizontal and vertical scrollbars. -/
structure PinchState where
  scaling : JsNum
  horizontalScrollbar : Option JsNum
  verticalScrollbar : Option JsNum
deriving DecidableEq

/-- The handler `PinchToScaleFeature.handleWheel` (src/PinchToScaleFeature.ts,
lines 87-122, the class with optional scrollbar properties).  Returns the
state after the handler together with whether `preventDefault` was called. -/
def handleWheel (event : WheelInput) (st : PinchState) : PinchState × Bool :=
  if !event.ctrlKey then (st, false)
  else if !event.targetIsNode then (st, false)
  else if !event.targetInScope then (st, false)
  else
    let deltaY := clamp event.deltaY (fin (-25)) (fin 25)
    let changeFactor := jsSub (fin 1) (jsDiv deltaY (fin 150))
    let currentScaling := st.scaling
    let newScaling0 := jsMul changeFactor currentScaling
    let newScaling1 := if jsIsFinite newScaling0 then newScaling0 else fin 1
    let newScaling := clamp newScaling1 (fin (1/100)) (fin 500)
    let changeFactor2 := jsDiv newScaling currentScaling
    let newScrollCenterX := jsMul changeFactor2 (st.horizontalScrollbar.getD (fin 0))
    let newScrollCenterY := jsMul changeFactor2 (st.verticalScrollbar.getD (fin 0))
    ({ scaling := newScaling
       horizontalScrollbar := st.horizontalScrollbar.map fun _ => newScrollCenterX
       verticalScrollbar := st.verticalScrollbar.map fun _ => newScrollCenterY },
     true)

/-- The candidate new scaling factor before the finiteness substitution and
the `[0.01, 500]` clamp, exactly as `handleWheel` computes it. -/
def candidateScaling (event : WheelInput) (st : PinchState) : JsNum :=
  jsMul (jsSub (fin 1) (jsDiv (clamp event.deltaY (fin (-25)) (fin 25)) (fin 150))) st.scaling

end PinchToScaleFeature

namespace ClickSelectTool

/-- The target of a mouse-down event as discriminated by
`ClickSelectTool.handleMouseDown`: the target SVG document itself
(empty space), an SVG graphics element (with whether the target SVG
document contains it), or a non-graphics node. -/
inductive ClickTarget where
  | surface
  | element (e : ℕ) (insideTarget : Bool)
  | nonGraphics
deriving DecidableEq

/-- A mouse-down event as seen by `ClickSelectTool.handleMouseDown`. -/
structure MouseInput where
  target : ClickTarget
  shiftKey : Bool
deriving DecidableEq

/-- The handler `ClickSelectTool.handleMouseDown` (src/ClickSelectTool.ts, lines 39-61)
acting on the live set of selected SVG elements. -/
def handleMouseDown (event : MouseInput) (selected : Finset ℕ) : Finset ℕ :=
  match event.target with
  | ClickTarget.surface => if !event.shiftKey then ∅ else selected
  | ClickTarget.nonGraphics => selected
  | ClickTarget.element e insideTarget =>
      if !insideTarget then selected
      else if e ∈ selected then
        if event.shiftKey then selected.erase e else selected
      else
        insert e (if !event.shiftKey then ∅ else selected)

/-- Folding `handleMouseDown` over a sequence of mouse-down events. -/
def runClicks (events : List MouseInput) (selected : Finset ℕ) : Finset ℕ :=
  events.foldl (fun s ev => handleMouseDown ev s) selected

end ClickSelectTool

/-- A box of the external `@rnacanvas/boxes` package: a rectangle given by
its top-left corner and its width and height. -/
structure Box where
  x : ℚ
  y : ℚ
  width : ℚ
  height : ℚ
deriving DecidableEq

namespace Box

/-- The left edge of a box. -/
def minX (b : Box) : ℚ := b.x

/-- The right edge of a box. -/
def maxX (b : Box) : ℚ := b.x + b.width

/-- The top edge of a box. -/
def minY (b : Box) : ℚ := b.y

/-- The bottom edge of a box. -/
def maxY (b : Box) : ℚ := b.y + b.height

/-- The constructor `Box.bounding` of the external `@rnacanvas/boxes` package: the smallest
box containing all of the given boxes (the zero box for an empty list). -/
def bounding : List Box → Box
  | [] => ⟨0, 0, 0, 0⟩
  | b :: bs =>
      let l := bs.foldl (fun m c => min m c.minX) b.minX
      let r := bs.foldl (fun m c => max m c.maxX) b.maxX
      let t := bs.foldl (fun m c => min m c.minY) b.minY
      let bo := bs.foldl (fun m c => max m c.maxY) b.maxY
      ⟨l, t, r - l, bo - t⟩

/-- The predicate `isBoundedBy` of the external `@rnacanvas/boxes` package: whether box
`a` lies fully inside box `b` (edge contact allowed). -/
def isBoundedBy (a b : Box) : Bool :=
  decide (b.minX ≤ a.minX) && decide (a.maxX ≤ b.maxX)
    && decide (b.minY ≤ a.minY) && decide (a.maxY ≤ b.maxY)

/-- The degenerate box at a point (used by `SelectingRect.handleMouseUp`
for the mouse-down and mouse-up points). -/
def point (x y : ℚ) : Box := ⟨x, y, 0, 0⟩

/-- The axis-aligned box spanning two corner points, written directly from
min/max of the coordinates; used to state what `Box.bounding` computes for
two point boxes. -/
def span (p q : ℚ × ℚ) : Box :=
  ⟨min p.1 q.1, min p.2 q.2, max p.1 q.1 - min p.1 q.1, max p.2 q.2 - min p.2 q.2⟩

end Box

namespace SelectingRect

/-- A mouse event as seen by the `SelectingRect` handlers: client
coordinates, the shift-modifier flag, and whether `event.target` is the
target SVG document itself. -/
structure MouseInput where
  clientX : ℚ
  clientY : ℚ
  shiftKey : Bool
  targetIsSurface : Bool
deriving DecidableEq

/-- The environment of a `SelectingRect`: the coordinate system of the
target SVG document (`fromClientX` / `fromClientY`) and the direct
children of the target SVG document, with whether each is an SVG graphics
element and its bounding box (`getBBox`). -/
structure Env where
  fromClientX : ℚ → ℚ
  fromClientY : ℚ → ℚ
  children : List ℕ
  isGraphics : ℕ → Bool
  bbox : ℕ → Box

/-- The mutable state of a `SelectingRect` together with the externally
owned live set of selected SVG elements.  `rectVisible` models the
visibility style of the DOM node of the selecting rect. -/
structure State where
  lastMouseDown : Option MouseInput
  lastMouseDownX : ℚ
  lastMouseDownY : ℚ
  mouseIsDown : Bool
  isDrawn : Bool
  rectVisible : Bool
  selection : Finset ℕ

/-- The state of a freshly constructed `SelectingRect` (hidden rect, no
recorded mouse-down) over an externally supplied initial selection. -/
def initState (sel0 : Finset ℕ) : State :=
  ⟨none, 0, 0, false, false, false, sel0⟩

/-- The handler `SelectingRect.handleMouseDown` (src/SelectingRect.ts, lines 140-147). -/
def handleMouseDown (env : Env) (event : MouseInput) (st : State) : State :=
  { st with
    lastMouseDown := some event
    lastMouseDownX := env.fromClientX event.clientX
    lastMouseDownY := env.fromClientY event.clientY
    mouseIsDown := true }

/-- The handler `SelectingRect.handleMouseMove` (src/SelectingRect.ts, lines 149-164). -/
def handleMouseMove (env : Env) (event : MouseInput) (st : State) : State :=
  if !st.mouseIsDown then st
  else
    match st.lastMouseDown with
    | none => st
    | some down =>
        if !down.targetIsSurface then st
        else { st with rectVisible := true, isDrawn := true }

/-- The handler `SelectingRect.handleMouseUp` (src/SelectingRect.ts, lines 166-195). -/
def handleMouseUp (env : Env) (event : MouseInput) (st : State) : State :=
  let wasDrawn := st.isDrawn
  let st1 := { st with mouseIsDown := false, rectVisible := false, isDrawn := false }
  if !wasDrawn then st1
  else
    let mouseUpX := env.fromClientX event.clientX
    let mouseUpY := env.fromClientY event.clientY
    let coveredBox := Box.bounding
      [Box.point st.lastMouseDownX st.lastMouseDownY, Box.point mouseUpX mouseUpY]
    let coveredEles := (env.children.filter fun e => env.isGraphics e).filter
      fun e => (env.bbox e).isBoundedBy coveredBox
    let shiftHeld := (st.lastMouseDown.map fun d => d.shiftKey).getD false
    let sel1 := if !shiftHeld then (∅ : Finset ℕ) else st.selection
    { st1 with selection := sel1 ∪ coveredEles.toFinset }

/-- The three kinds of mouse events a `SelectingRect` listens for. -/
inductive Event where
  | down (ev : MouseInput)
  | move (ev : MouseInput)
  | up (ev : MouseInput)

/-- Dispatch one mouse event to the corresponding `SelectingRect` handler. -/
def step (env : Env) (st : State) : Event → State
  | Event.down ev => handleMouseDown env ev st
  | Event.move ev => handleMouseMove env ev st
  | Event.up ev => handleMouseUp env ev st

/-- Run a sequence of mouse events through a `SelectingRect` from a state. -/
def run (env : Env) (st : State) (events : List Event) : State :=
  events.foldl (step env) st

end SelectingRect

namespace JsNum

/-- Multiplication of JavaScript numbers is commutative. -/
theorem jsMul_comm (a b : JsNum) : jsMul a b = jsMul b a := by
  cases a <;> cases b <;> simp [jsMul, mul_comm] <;>
    (rename_i p q; cases p <;> cases q <;> simp)

/-- Clamping a finite value between finite bounds `lo ≤ hi` yields a finite
value in `[lo, hi]`. -/
theorem clamp_fin_bounds (q lo hi : ℚ) (h : lo ≤ hi) :
    ∃ r : ℚ, clamp (fin q) (fin lo) (fin hi) = fin r ∧ lo ≤ r ∧ r ≤ hi := by
  unfold clamp jsLt
  by_cases h1 : q < lo
  · exact ⟨lo, by simp [h1], le_refl lo, h⟩
  · by_cases h2 : hi < q
    · exact ⟨hi, by simp [h1, h2], h, le_refl hi⟩
    · exact ⟨q, by simp [h1, h2], le_of_not_lt h1, le_of_not_lt h2⟩

end JsNum

namespace PinchToScaleFeature

open JsNum

/-- For a handled wheel event, the new scaling factor written to the state
is exactly what the source computes: the candidate scaling, with a
non-finite candidate replaced by 1, clamped to `[1/100, 500]`; and
`preventDefault` is called. -/
theorem handleWheel_handled (event : WheelInput) (st : PinchState)
    (hc : event.ctrlKey = true) (hn : event.targetIsNode = true)
    (hs : event.targetInScope = true) :
    handleWheel event st =
      (let newScaling := clamp
        (if (candidateScaling event st).jsIsFinite then candidateScaling event st else fin 1)
        (fin (1/100)) (fin 500)
       let changeFactor2 := jsDiv newScaling st.scaling
       ({ scaling := newScaling
          horizontalScrollbar :=
            st.horizontalScrollbar.map fun _ =>
              jsMul changeFactor2 (st.horizontalScrollbar.getD (fin 0))
          verticalScrollbar :=
            st.verticalScrollbar.map fun _ =>
              jsMul changeFactor2 (st.verticalScrollbar.getD (fin 0)) },
        true)) := by
  simp only [handleWheel, hc, hn, hs, Bool.not_true, Bool.false_eq_true, if_false,
    candidateScaling]

/-- C1 — For every handled wheel event (control held, target a node inside
the interaction scope), the new thumb-center of each attached scrollbar
coordinate equals its old thumb-center coordinate multiplied by the ratio
of the new scaling factor (as written, i.e. after any clamping) to the old
scaling factor, for the horizontal and vertical axes independently. -/
theorem handleWheel_scroll_compensation (event : WheelInput) (st : PinchState)
    (hc : event.ctrlKey = true) (hn : event.targetIsNode = true)
    (hs : event.targetInScope = true) :
    (∀ cx : JsNum, st.horizontalScrollbar = some cx →
      (handleWheel event st).1.horizontalScrollbar =
        some (jsMul cx (jsDiv (handleWheel event st).1.scaling st.scaling)))
    ∧ (∀ cy : JsNum, st.verticalScrollbar = some cy →
      (handleWheel event st).1.verticalScrollbar =
        some (jsMul cy (jsDiv (handleWheel event st).1.scaling st.scaling))) := by
  rw [handleWheel_handled event st hc hn hs]
  constructor
  · intro cx hcx
    simp [hcx, jsMul_comm]
  · intro cy hcy
    simp [hcy, jsMul_comm]

/-- Witness for `handleWheel_scroll_compensation` at a concrete handled
event with both scrollbars attached. -/
theorem handleWheel_scroll_compensation_witness :
    (⟨true, true, true, fin 5⟩ : WheelInput).ctrlKey = true ∧
    ((∀ cx : JsNum,
        (⟨fin 2, some (fin 10), some (fin 8)⟩ : PinchState).horizontalScrollbar = some cx →
        (handleWheel ⟨true, true, true, fin 5⟩
            ⟨fin 2, some (fin 10), some (fin 8)⟩).1.horizontalScrollbar =
          some (jsMul cx (jsDiv (handleWheel ⟨true, true, true, fin 5⟩
            ⟨fin 2, some (fin 10), some (fin 8)⟩).1.scaling
            (⟨fin 2, some (fin 10), some (fin 8)⟩ : PinchState).scaling)))
      ∧ (∀ cy : JsNum,
        (⟨fin 2, some (fin 10), some (fin 8)⟩ : PinchState).verticalScrollbar = some cy →
        (handleWheel ⟨true, true, true, fin 5⟩
            ⟨fin 2, some (fin 10), some (fin 8)⟩).1.verticalScrollbar =
          some (jsMul cy (jsDiv (handleWheel ⟨true, true, true, fin 5⟩
            ⟨fin 2, some (fin 10), some (fin 8)⟩).1.scaling
            (⟨fin 2, some (fin 10), some (fin 8)⟩ : PinchState).scaling)))) :=
  ⟨rfl, handleWheel_scroll_compensation ⟨true, true, true, fin 5⟩
    ⟨fin 2, some (fin 10), some (fin 8)⟩ rfl rfl rfl⟩

/-- C2 — For every handled wheel event, the scaling factor written to the
state equals the clamp to `[1/100, 500]` of the candidate scaling
(old scaling times `1 - clamp(deltaY, -25, 25) / 150`), with a non-finite
candidate first replaced by 1; in particular the written scaling factor is
always a finite value in `[1/100, 500]`. -/
theorem handleWheel_scale_clamped (event : WheelInput) (st : PinchState)
    (hc : event.ctrlKey = true) (hn : event.targetIsNode = true)
    (hs : event.targetInScope = true) :
    ((candidateScaling event st).jsIsFinite = true →
      (handleWheel event st).1.scaling =
        clamp (candidateScaling event st) (fin (1/100)) (fin 500))
    ∧ ((candidateScaling event st).jsIsFinite = false →
      (handleWheel event st).1.scaling = fin 1)
    ∧ ∃ q : ℚ, (handleWheel event st).1.scaling = fin q ∧ 1/100 ≤ q ∧ q ≤ 500 := by
  rw [handleWheel_handled event st hc hn hs]
  refine ⟨fun hf => by simp [hf], fun hf => by simp [hf, clamp, jsLt]; norm_num, ?_⟩
  rcases hcand : candidateScaling event st with q | _ | p
  · simpa using clamp_fin_bounds q (1/100) 500 (by norm_num)
  · simpa [jsIsFinite] using clamp_fin_bounds 1 (1/100) 500 (by norm_num)
  · simpa [jsIsFinite] using clamp_fin_bounds 1 (1/100) 500 (by norm_num)

/-- Witness for `handleWheel_scale_clamped` at a concrete handled event. -/
theorem handleWheel_scale_clamped_witness :
    (⟨true, true, true, fin 30⟩ : WheelInput).ctrlKey = true ∧
    (((candidateScaling ⟨true, true, true, fin 30⟩ ⟨fin 3, none, none⟩).jsIsFinite = true →
        (handleWheel ⟨true, true, true, fin 30⟩ ⟨fin 3, none, none⟩).1.scaling =
          clamp (candidateScaling ⟨true, true, true, fin 30⟩ ⟨fin 3, none, none⟩)
            (fin (1/100)) (fin 500))
      ∧ ((candidateScaling ⟨true, true, true, fin 30⟩ ⟨fin 3, none, none⟩).jsIsFinite = false →
        (handleWheel ⟨true, true, true, fin 30⟩ ⟨fin 3, none, none⟩).1.scaling = fin 1)
      ∧ ∃ q : ℚ, (handleWheel ⟨true, true, true, fin 30⟩ ⟨fin 3, none, none⟩).1.scaling = fin q
          ∧ 1/100 ≤ q ∧ q ≤ 500) :=
  ⟨rfl, handleWheel_scale_clamped ⟨true, true, true, fin 30⟩ ⟨fin 3, none, none⟩ rfl rfl rfl⟩

/-- C3 (counterexample) — at current scaling 2 and raw vertical delta
-150, the example in the spec is wrong on the code: the resulting scaling is
not 4 and the horizontal thumb-center (here 10) is not doubled, because
the raw delta is clamped to `[-25, 25]` before the change factor is
computed. -/
theorem handleWheel_spec_example_fails :
    (handleWheel ⟨true, true, true, fin (-150)⟩
        ⟨fin 2, some (fin 10), some (fin 10)⟩).1.scaling ≠ fin 4
    ∧ (handleWheel ⟨true, true, true, fin (-150)⟩
        ⟨fin 2, some (fin 10), some (fin 10)⟩).1.horizontalScrollbar ≠ some (fin 20) := by
  constructor <;>
    norm_num [handleWheel, candidateScaling, clamp, jsLt, jsSub, jsDiv, jsMul, jsIsFinite]

/-- C3 (amended) — at current scaling 2 and raw vertical delta -150, the
delta is clamped to -25, the change factor computed is
`1 - (-25 / 150) = 7/6`, the resulting scaling is `7/6 * 2 = 7/3`, and the
horizontal thumb-center coordinate is multiplied by 7/6 (here 10 becomes
35/3). -/
theorem handleWheel_spec_example_amended :
    clamp (fin (-150)) (fin (-25)) (fin 25) = fin (-25)
    ∧ jsSub (fin 1) (jsDiv (clamp (fin (-150)) (fin (-25)) (fin 25)) (fin 150)) = fin (7/6)
    ∧ (handleWheel ⟨true, true, true, fin (-150)⟩
        ⟨fin 2, some (fin 10), some (fin 10)⟩).1.scaling = fin (7/3)
    ∧ (handleWheel ⟨true, true, true, fin (-150)⟩
        ⟨fin 2, some (fin 10), some (fin 10)⟩).1.horizontalScrollbar =
          some (jsMul (fin 10) (fin (7/6))) := by
  refine ⟨?_, ?_, ?_, ?_⟩ <;>
    norm_num [handleWheel, candidateScaling, clamp, jsLt, jsSub, jsDiv, jsMul, jsIsFinite]

/-- C8 — A wheel event without the control modifier leaves the state
(the scaling factor and both scrollbar thumb-centers) unchanged and does
not call `preventDefault`. -/
theorem handleWheel_no_ctrl (event : WheelInput) (st : PinchState)
    (h : event.ctrlKey = false) :
    handleWheel event st = (st, false) := by
  simp [handleWheel, h]

/-- Witness for `handleWheel_no_ctrl` at a concrete event without the
control modifier. -/
theorem handleWheel_no_ctrl_witness :
    (⟨false, true, true, fin 7⟩ : WheelInput).ctrlKey = false ∧
    handleWheel ⟨false, true, true, fin 7⟩ ⟨fin 2, some (fin 10), none⟩ =
      (⟨fin 2, some (fin 10), none⟩, false) :=
  ⟨rfl, handleWheel_no_ctrl ⟨false, true, true, fin 7⟩ ⟨fin 2, some (fin 10), none⟩ rfl⟩

/-- C10 — A handled wheel event with neither scrollbar attached still
computes, clamps and writes the new scaling factor (and calls
`preventDefault`), and both scrollbar slots stay unattached. -/
theorem handleWheel_without_scrollbars (event : WheelInput) (st : PinchState)
    (hc : event.ctrlKey = true) (hn : event.targetIsNode = true)
    (hs : event.targetInScope = true)
    (hx : st.horizontalScrollbar = none) (hy : st.verticalScrollbar = none) :
    (handleWheel event st).1.horizontalScrollbar = none
    ∧ (handleWheel event st).1.verticalScrollbar = none
    ∧ (handleWheel event st).1.scaling =
        clamp (if (candidateScaling event st).jsIsFinite then candidateScaling event st
               else fin 1)
          (fin (1/100)) (fin 500)
    ∧ (handleWheel event st).2 = true := by
  rw [handleWheel_handled event st hc hn hs]
  simp [hx, hy]

/-- Witness for `handleWheel_without_scrollbars` at a concrete handled
event with no scrollbars attached. -/
theorem handleWheel_without_scrollbars_witness :
    (⟨true, true, true, fin (-10)⟩ : WheelInput).ctrlKey = true ∧
    ((handleWheel ⟨true, true, true, fin (-10)⟩ ⟨fin 1, none, none⟩).1.horizontalScrollbar = none
      ∧ (handleWheel ⟨true, true, true, fin (-10)⟩ ⟨fin 1, none, none⟩).1.verticalScrollbar = none
      ∧ (handleWheel ⟨true, true, true, fin (-10)⟩ ⟨fin 1, none, none⟩).1.scaling =
          clamp (if (candidateScaling ⟨true, true, true, fin (-10)⟩
              ⟨fin 1, none, none⟩).jsIsFinite then
            candidateScaling ⟨true, true, true, fin (-10)⟩ ⟨fin 1, none, none⟩ else fin 1)
            (fin (1/100)) (fin 500)
      ∧ (handleWheel ⟨true, true, true, fin (-10)⟩ ⟨fin 1, none, none⟩).2 = true) :=
  ⟨rfl, handleWheel_without_scrollbars ⟨true, true, true, fin (-10)⟩ ⟨fin 1, none, none⟩
    rfl rfl rfl rfl rfl⟩

end PinchToScaleFeature

namespace ClickSelectTool

/-- A mouse-down without shift leaves the selection set with at most one
element whenever it had at most one element before. -/
theorem handleMouseDown_card_le_one (event : MouseInput) (s : Finset ℕ)
    (hsh : event.shiftKey = false) (hs : s.card ≤ 1) :
    (handleMouseDown event s).card ≤ 1 := by
  rcases event with ⟨t, sh⟩
  simp only at hsh
  subst hsh
  cases t with
  | surface => simp [handleMouseDown]
  | nonGraphics => simpa [handleMouseDown]
  | element e insideTarget =>
      cases insideTarget with
      | false => simpa [handleMouseDown]
      | true =>
          by_cases he : e ∈ s
          · simpa [handleMouseDown, he]
          · simp [handleMouseDown, he]

/-- Folding shift-less mouse-downs preserves having at most one selected
element. -/
theorem runClicks_card_le_one (events : List MouseInput) (s : Finset ℕ)
    (hall : ∀ ev ∈ events, ev.shiftKey = false) (hs : s.card ≤ 1) :
    (runClicks events s).card ≤ 1 := by
  induction events generalizing s with
  | nil => simpa [runClicks]
  | cons ev rest ih =>
      simp only [runClicks, List.foldl_cons] at ih ⊢
      exact ih (handleMouseDown ev s)
        (fun x hx => hall x (List.mem_cons_of_mem ev hx))
        (handleMouseDown_card_le_one ev s (hall ev (List.mem_cons_self ev rest)) hs)

/-- C4 — Starting from an empty selection, after any sequence of
shift-less mouse-down events, a final shift-less mouse-down on an SVG
graphics element inside the target SVG document leaves the selection
exactly the singleton of that element, and a final shift-less mouse-down
on the target SVG document itself (empty space) leaves the selection
empty; quantifying over all prefixes, this holds at every click of the
sequence. -/
theorem runClicks_without_shift (events : List MouseInput) (event : MouseInput)
    (hall : ∀ ev ∈ events, ev.shiftKey = false) (hsh : event.shiftKey = false) :
    (∀ e : ℕ, event.target = ClickTarget.element e true →
      runClicks (events ++ [event]) ∅ = {e})
    ∧ (event.target = ClickTarget.surface → runClicks (events ++ [event]) ∅ = ∅) := by
  have hfold : runClicks (events ++ [event]) ∅ = handleMouseDown event (runClicks events ∅) := by
    simp [runClicks, List.foldl_append]
  have hcard : (runClicks events ∅).card ≤ 1 :=
    runClicks_card_le_one events ∅ hall (by simp)
  constructor
  · intro e he
    rw [hfold]
    by_cases hmem : e ∈ runClicks events ∅
    · have hsing : runClicks events ∅ = {e} :=
        Finset.eq_singleton_iff_unique_mem.mpr
          ⟨hmem, fun x hx => Finset.card_le_one.mp hcard x hx e hmem⟩
      simp [handleMouseDown, he, hsh, hsing]
    · simp [handleMouseDown, he, hsh, hmem]
  · intro he
    rw [hfold]
    simp [handleMouseDown, he, hsh]

/-- Witness for `runClicks_without_shift`: after shift-less clicks on
elements 2 and then 1, the selection is exactly `{1}`. -/
theorem runClicks_without_shift_witness :
    (∀ ev ∈ [(⟨ClickTarget.element 2 true, false⟩ : MouseInput)], ev.shiftKey = false) ∧
    ((∀ e : ℕ,
        (⟨ClickTarget.element 1 true, false⟩ : MouseInput).target = ClickTarget.element e true →
        runClicks ([⟨ClickTarget.element 2 true, false⟩] ++
          [⟨ClickTarget.element 1 true, false⟩]) ∅ = {e})
      ∧ ((⟨ClickTarget.element 1 true, false⟩ : MouseInput).target = ClickTarget.surface →
        runClicks ([⟨ClickTarget.element 2 true, false⟩] ++
          [⟨ClickTarget.element 1 true, false⟩]) ∅ = ∅)) :=
  ⟨by decide, runClicks_without_shift [⟨ClickTarget.element 2 true, false⟩]
    ⟨ClickTarget.element 1 true, false⟩ (by decide) rfl⟩

/-- C6 — A mouse-down on an SVG graphics element inside the target SVG
document that is already selected removes exactly that element from the
selection when shift is held (all other members remain), and leaves the
selection completely unchanged when shift is not held. -/
theorem handleMouseDown_already_selected (event : MouseInput) (e : ℕ) (selected : Finset ℕ)
    (ht : event.target = ClickTarget.element e true) (hmem : e ∈ selected) :
    (event.shiftKey = true →
      (∀ x : ℕ, x ∈ handleMouseDown event selected ↔ x ∈ selected ∧ x ≠ e))
    ∧ (event.shiftKey = false → handleMouseDown event selected = selected) := by
  constructor
  · intro hsh x
    simp [handleMouseDown, ht, hmem, hsh, Finset.mem_erase, and_comm]
  · intro hsh
    simp [handleMouseDown, ht, hmem, hsh]

/-- Witness for `handleMouseDown_already_selected` with selection
`{1, 2}` and a click on the already-selected element 1. -/
theorem handleMouseDown_already_selected_witness :
    (⟨ClickTarget.element 1 true, true⟩ : MouseInput).target = ClickTarget.element 1 true ∧
    (1 ∈ ({1, 2} : Finset ℕ)) ∧
    (((⟨ClickTarget.element 1 true, true⟩ : MouseInput).shiftKey = true →
        (∀ x : ℕ, x ∈ handleMouseDown ⟨ClickTarget.element 1 true, true⟩ {1, 2} ↔
          x ∈ ({1, 2} : Finset ℕ) ∧ x ≠ 1))
      ∧ ((⟨ClickTarget.element 1 true, true⟩ : MouseInput).shiftKey = false →
        handleMouseDown ⟨ClickTarget.element 1 true, true⟩ {1, 2} = {1, 2})) :=
  ⟨rfl, by decide,
    handleMouseDown_already_selected ⟨ClickTarget.element 1 true, true⟩ 1 {1, 2} rfl (by decide)⟩

end ClickSelectTool

namespace Box

/-- The value of `Box.bounding` on the two degenerate point boxes at two corner points
is the axis-aligned box spanning the two points. -/
theorem bounding_pair (x1 y1 x2 y2 : ℚ) :
    bounding [point x1 y1, point x2 y2] = span (x1, y1) (x2, y2) := by
  simp [bounding, point, span, minX, maxX, minY, maxY]

/-- The box spanning two corner points does not depend on the order of the
points (opposite drag directions give the same normalized box). -/
theorem span_comm (p q : ℚ × ℚ) : span p q = span q p := by
  simp [span, min_comm, max_comm]

end Box

namespace SelectingRect

/-- C5 — When the selecting rect was drawn, on mouse-up the selection
consists of exactly: the previous selection when shift was held at
mouse-down, together with the direct children of the target SVG document
that are SVG graphics elements and whose bounding boxes are fully contained
in the axis-aligned box spanning the mouse-down point and the mouse-up
point; moreover, swapping the roles of the down point and the up point
(an opposite drag direction over the same two corner points, same shift
flag and prior selection) yields the same resulting selection. -/
theorem handleMouseUp_drag_select (env : Env) (event : MouseInput) (st : State)
    (h : st.isDrawn = true) :
    (∀ e : ℕ, e ∈ (handleMouseUp env event st).selection ↔
      ((st.lastMouseDown.map fun d => d.shiftKey).getD false = true ∧ e ∈ st.selection)
      ∨ (e ∈ env.children ∧ env.isGraphics e = true ∧
          (env.bbox e).isBoundedBy
            (Box.span (st.lastMouseDownX, st.lastMouseDownY)
              (env.fromClientX event.clientX, env.fromClientY event.clientY)) = true))
    ∧ (∀ (st2 : State) (event2 : MouseInput),
        st2.isDrawn = true →
        st2.selection = st.selection →
        (st2.lastMouseDown.map fun d => d.shiftKey) = (st.lastMouseDown.map fun d => d.shiftKey) →
        st2.lastMouseDownX = env.fromClientX event.clientX →
        st2.lastMouseDownY = env.fromClientY event.clientY →
        env.fromClientX event2.clientX = st.lastMouseDownX →
        env.fromClientY event2.clientY = st.lastMouseDownY →
        (handleMouseUp env event2 st2).selection = (handleMouseUp env event st).selection) := by
  constructor
  · intro e
    rcases hsh : (st.lastMouseDown.map fun d => d.shiftKey).getD false with _ | _
    · simp only [handleMouseUp, h, hsh, Bool.not_true, Bool.not_false, Bool.false_eq_true,
        if_false, if_true, Box.bounding_pair, Finset.mem_union, List.mem_toFinset,
        List.mem_filter, Finset.not_mem_empty]
      tauto
    · simp only [handleMouseUp, h, hsh, Bool.not_true, Bool.not_false, Bool.false_eq_true,
        if_false, if_true, Box.bounding_pair, Finset.mem_union, List.mem_toFinset,
        List.mem_filter, Finset.not_mem_empty]
      tauto
  · intro st2 event2 h2 hsel hshift hdx hdy hux huy
    simp only [handleMouseUp, h, h2, Bool.not_true, Bool.false_eq_true, if_false,
      Box.bounding_pair, hsel, hshift, hdx, hdy, hux, huy]
    rw [show Box.span (env.fromClientX event.clientX, env.fromClientY event.clientY)
          (st.lastMouseDownX, st.lastMouseDownY)
        = Box.span (st.lastMouseDownX, st.lastMouseDownY)
          (env.fromClientX event.clientX, env.fromClientY event.clientY)
      from Box.span_comm _ _]

/-- Witness for `handleMouseUp_drag_select`: a drag from `(0, 0)` to
`(5, 5)` over children 1 (bounding box inside the dragged box) and
2 (bounding box partially outside). -/
theorem handleMouseUp_drag_select_witness :
    (⟨some ⟨0, 0, false, true⟩, 0, 0, true, true, true, ∅⟩ : State).isDrawn = true ∧
    ((∀ e : ℕ, e ∈ (handleMouseUp
        ⟨fun q => q, fun q => q, [1, 2], fun _ => true, fun e => if e = 1
          then ⟨1, 1, 2, 2⟩ else ⟨4, 4, 3, 3⟩⟩
        ⟨5, 5, false, false⟩
        ⟨some ⟨0, 0, false, true⟩, 0, 0, true, true, true, ∅⟩).selection ↔
      (((⟨some ⟨0, 0, false, true⟩, 0, 0, true, true, true, ∅⟩ : State).lastMouseDown.map
          fun d => d.shiftKey).getD false = true ∧
        e ∈ (⟨some ⟨0, 0, false, true⟩, 0, 0, true, true, true, ∅⟩ : State).selection)
      ∨ (e ∈ [1, 2] ∧ (fun _ : ℕ => true) e = true ∧
          Box.isBoundedBy ((fun e : ℕ => if e = 1 then (⟨1, 1, 2, 2⟩ : Box)
              else ⟨4, 4, 3, 3⟩) e)
            (Box.span (0, 0) ((fun q : ℚ => q) 5, (fun q : ℚ => q) 5)) = true))
    ∧ (∀ (st2 : State) (event2 : MouseInput),
        st2.isDrawn = true →
        st2.selection = (⟨some ⟨0, 0, false, true⟩, 0, 0, true, true, true, ∅⟩ : State).selection →
        (st2.lastMouseDown.map fun d => d.shiftKey) =
          ((⟨some ⟨0, 0, false, true⟩, 0, 0, true, true, true, ∅⟩ : State).lastMouseDown.map
            fun d => d.shiftKey) →
        st2.lastMouseDownX = (fun q : ℚ => q) 5 →
        st2.lastMouseDownY = (fun q : ℚ => q) 5 →
        (fun q : ℚ => q) event2.clientX =
          (⟨some ⟨0, 0, false, true⟩, 0, 0, true, true, true, ∅⟩ : State).lastMouseDownX →
        (fun q : ℚ => q) event2.clientY =
          (⟨some ⟨0, 0, false, true⟩, 0, 0, true, true, true, ∅⟩ : State).lastMouseDownY →
        (handleMouseUp
          ⟨fun q => q, fun q => q, [1, 2], fun _ => true, fun e => if e = 1
            then ⟨1, 1, 2, 2⟩ else ⟨4, 4, 3, 3⟩⟩ event2 st2).selection =
        (handleMouseUp
          ⟨fun q => q, fun q => q, [1, 2], fun _ => true, fun e => if e = 1
            then ⟨1, 1, 2, 2⟩ else ⟨4, 4, 3, 3⟩⟩
          ⟨5, 5, false, false⟩
          ⟨some ⟨0, 0, false, true⟩, 0, 0, true, true, true, ∅⟩).selection)) :=
  ⟨rfl, handleMouseUp_drag_select
    ⟨fun q => q, fun q => q, [1, 2], fun _ => true, fun e => if e = 1
      then ⟨1, 1, 2, 2⟩ else ⟨4, 4, 3, 3⟩⟩
    ⟨5, 5, false, false⟩
    ⟨some ⟨0, 0, false, true⟩, 0, 0, true, true, true, ∅⟩ rfl⟩

/-- A mouse-move whose recorded mouse-down did not target the target SVG
document itself leaves the `SelectingRect` state unchanged. -/
theorem handleMouseMove_nonsurface_id (env : Env) (event : MouseInput) (st : State)
    (d : MouseInput) (hld : st.lastMouseDown = some d) (hd : d.targetIsSurface = false) :
    handleMouseMove env event st = st := by
  simp [handleMouseMove, hld, hd]

/-- C7 — A mouse-down followed by any mouse-moves that never draw the
selecting rect (none at all, or a gesture whose mouse-down did not target
the target SVG document itself) and then a mouse-up leaves the selection
unchanged, provided the rect was not already drawn. -/
theorem gesture_without_drag_preserves_selection (env : Env) (ev1 : MouseInput)
    (moves : List MouseInput) (ev2 : MouseInput) (st : State)
    (h : st.isDrawn = false)
    (hnm : moves = [] ∨ ev1.targetIsSurface = false) :
    (handleMouseUp env ev2
      (moves.foldl (fun s m => handleMouseMove env m s)
        (handleMouseDown env ev1 st))).selection = st.selection := by
  have hd : (handleMouseDown env ev1 st).isDrawn = false := by
    simpa [handleMouseDown] using h
  have hsel : (handleMouseDown env ev1 st).selection = st.selection := by
    simp [handleMouseDown]
  have hld : (handleMouseDown env ev1 st).lastMouseDown = some ev1 := by
    simp [handleMouseDown]
  rcases hnm with rfl | hns
  · simp only [List.foldl_nil]
    simp [handleMouseUp, hd, hsel]
  · have hfold : moves.foldl (fun s m => handleMouseMove env m s)
        (handleMouseDown env ev1 st) = handleMouseDown env ev1 st := by
      induction moves with
      | nil => rfl
      | cons m rest ih =>
          rw [List.foldl_cons,
            handleMouseMove_nonsurface_id env m (handleMouseDown env ev1 st) ev1 hld hns, ih]
    rw [hfold]
    simp [handleMouseUp, hd, hsel]

/-- Witness for `gesture_without_drag_preserves_selection`: a plain click
(down then up, no moves) over selection `{3}`. -/
theorem gesture_without_drag_preserves_selection_witness :
    (⟨none, 0, 0, false, false, false, {3}⟩ : State).isDrawn = false ∧
    (handleMouseUp ⟨fun q => q, fun q => q, [], fun _ => false, fun _ => ⟨0, 0, 0, 0⟩⟩
      ⟨2, 2, false, true⟩
      (List.foldl (fun s m => handleMouseMove
          ⟨fun q => q, fun q => q, [], fun _ => false, fun _ => ⟨0, 0, 0, 0⟩⟩ m s) (handleMouseDown
          ⟨fun q => q, fun q => q, [], fun _ => false, fun _ => ⟨0, 0, 0, 0⟩⟩
          ⟨1, 1, false, true⟩
          ⟨none, 0, 0, false, false, false, {3}⟩) [])).selection =
      (⟨none, 0, 0, false, false, false, {3}⟩ : State).selection :=
  ⟨rfl, gesture_without_drag_preserves_selection
    ⟨fun q => q, fun q => q, [], fun _ => false, fun _ => ⟨0, 0, 0, 0⟩⟩
    ⟨1, 1, false, true⟩ [] ⟨2, 2, false, true⟩
    ⟨none, 0, 0, false, false, false, {3}⟩ rfl (Or.inl rfl)⟩

/-- The `SelectingRect` state invariant: whenever the rect is drawn, the
mouse is down and a mouse-down event is recorded. -/
def DrawnInv (st : State) : Prop :=
  st.isDrawn = true → st.mouseIsDown = true ∧ st.lastMouseDown.isSome = true

/-- Each `SelectingRect` event handler preserves the invariant `DrawnInv`. -/
theorem step_preserves_drawnInv (env : Env) (e : Event) (st : State)
    (h : DrawnInv st) : DrawnInv (step env st e) := by
  cases e with
  | down ev =>
      intro _
      simp [step, handleMouseDown]
  | move ev =>
      unfold step handleMouseMove
      rcases hmd : st.mouseIsDown with _ | _
      · simpa [hmd]
      · rcases hld : st.lastMouseDown with _ | d
        · simpa [hld] using h
        · rcases hts : d.targetIsSurface with _ | _
          · simpa [hld, hts] using h
          · intro _
            simp [hld, hts, hmd]
  | up ev =>
      unfold step handleMouseUp
      rcases hd : st.isDrawn with _ | _
      · intro hfalse
        simp at hfalse
      · intro hfalse
        simp at hfalse

/-- Running any event sequence preserves the invariant `DrawnInv`. -/
theorem run_preserves_drawnInv (env : Env) (events : List Event) :
    ∀ st : State, DrawnInv st → DrawnInv (run env st events) := by
  induction events with
  | nil => exact fun st h => h
  | cons e rest ih =>
      exact fun st h => ih (step env st e) (step_preserves_drawnInv env e st h)

/-- C9 — In every state reachable by any sequence of mouse-down,
mouse-move and mouse-up events from the initial state of a
`SelectingRect` (over any initial selection), if the rect is drawn then
the mouse is down and a last mouse-down event is recorded, so the
selection-computing branch of mouse-up always has a recorded down point. -/
theorem run_isDrawn_invariant (env : Env) (sel0 : Finset ℕ) (events : List Event)
    (h : (run env (initState sel0) events).isDrawn = true) :
    (run env (initState sel0) events).mouseIsDown = true
    ∧ (run env (initState sel0) events).lastMouseDown.isSome = true := by
  refine run_preserves_drawnInv env events (initState sel0) ?_ h
  intro hfalse
  simp [initState] at hfalse

/-- Witness for `run_isDrawn_invariant`: a mouse-down on the target SVG
document followed by a mouse-move draws the rect, and indeed the mouse is
down and the mouse-down is recorded. -/
theorem run_isDrawn_invariant_witness :
    (run ⟨fun q => q, fun q => q, [], fun _ => false, fun _ => ⟨0, 0, 0, 0⟩⟩ (initState ∅)
      [Event.down ⟨0, 0, false, true⟩, Event.move ⟨1, 1, false, true⟩]).isDrawn = true ∧
    ((run ⟨fun q => q, fun q => q, [], fun _ => false, fun _ => ⟨0, 0, 0, 0⟩⟩ (initState ∅)
        [Event.down ⟨0, 0, false, true⟩, Event.move ⟨1, 1, false, true⟩]).mouseIsDown = true
      ∧ (run ⟨fun q => q, fun q => q, [], fun _ => false, fun _ => ⟨0, 0, 0, 0⟩⟩ (initState ∅)
        [Event.down ⟨0, 0, false, true⟩,
          Event.move ⟨1, 1, false, true⟩]).lastMouseDown.isSome = true) :=
  ⟨rfl, run_isDrawn_invariant
    ⟨fun q => q, fun q => q, [], fun _ => false, fun _ => ⟨0, 0, 0, 0⟩⟩ ∅
    [Event.down ⟨0, 0, false, true⟩, Event.move ⟨1, 1, false, true⟩] rfl⟩

end SelectingRect
